import Mathlib

/-
Verification of the imap-clean-dup utility (src/main.go): a shallow
embedding of its fingerprint computation, duplicate scan and removal
workflow, with theorems about the properties stated in the design
specification.
-/

set_option maxRecDepth 8000
set_option linter.unusedVariables false

namespace ImapDedup

/-- 32-bit truncation used for all word arithmetic in SHA-1. -/
def w32 (n : Nat) : Nat := n % 4294967296

/-- Left rotation of a 32-bit word by b bits (0 < b < 32, n < 2^32). -/
def rotl (b n : Nat) : Nat := w32 (n * 2 ^ b) + n / 2 ^ (32 - b)

/-- Bitwise complement within 32 bits. -/
def bnot32 (n : Nat) : Nat := 4294967295 - n

/-- The SHA-1 round function, selected by round index. -/
def sha1F (i b c d : Nat) : Nat :=
  if i < 20 then (b &&& c) ||| (bnot32 b &&& d)
  else if i < 40 then b ^^^ c ^^^ d
  else if i < 60 then (b &&& c) ||| (b &&& d) ||| (c &&& d)
  else b ^^^ c ^^^ d

/-- The SHA-1 round constants, selected by round index. -/
def sha1K (i : Nat) : Nat :=
  if i < 20 then 0x5A827999
  else if i < 40 then 0x6ED9EBA1
  else if i < 60 then 0x8F1BBCDC
  else 0xCA62C1D6

/-- Big-endian byte decomposition of a 32-bit word. -/
def beBytes4 (n : Nat) : List Nat :=
  [n / 16777216 % 256, n / 65536 % 256, n / 256 % 256, n % 256]

/-- Big-endian byte decomposition of the 64-bit length field. -/
def beBytes8 (n : Nat) : List Nat :=
  beBytes4 (n / 4294967296) ++ beBytes4 n

/-- SHA-1 padding: a 0x80 byte, zeros up to 56 mod 64, then the bit length. -/
def sha1Pad (msg : List Nat) : List Nat :=
  msg ++ 128 :: (List.replicate ((119 - msg.length % 64) % 64) 0 ++ beBytes8 (msg.length * 8))

/-- Group bytes into big-endian 32-bit words. -/
def toWords : List Nat → List Nat
  | a :: b :: c :: d :: rest => (a * 16777216 + b * 65536 + c * 256 + d) :: toWords rest
  | _ => []

/-- One step of the SHA-1 message-schedule extension, on the reversed schedule. -/
def extendStep (ws : List Nat) : List Nat :=
  rotl 1 (ws.getD 2 0 ^^^ ws.getD 7 0 ^^^ ws.getD 13 0 ^^^ ws.getD 15 0) :: ws

/-- The 80-word message schedule of one 64-byte chunk. -/
def sha1Schedule (chunk : List Nat) : List Nat :=
  (extendStep^[64] (toWords chunk).reverse).reverse

/-- One SHA-1 round on the five-word working state. -/
def sha1Round (st : Nat × Nat × Nat × Nat × Nat) (iw : Nat × Nat) :
    Nat × Nat × Nat × Nat × Nat :=
  match st, iw with
  | (a, b, c, d, e), (i, w) =>
      (w32 (rotl 5 a + sha1F i b c d + e + sha1K i + w), a, rotl 30 b, c, d)

/-- Compression of one 64-byte chunk into the running hash state. -/
def sha1Chunk (h : Nat × Nat × Nat × Nat × Nat) (chunk : List Nat) :
    Nat × Nat × Nat × Nat × Nat :=
  match h, ((List.range 80).zip (sha1Schedule chunk)).foldl sha1Round h with
  | (h0, h1, h2, h3, h4), (a, b, c, d, e) =>
      (w32 (h0 + a), w32 (h1 + b), w32 (h2 + c), w32 (h3 + d), w32 (h4 + e))

/-- Process the given number of 64-byte blocks of a padded message. -/
def sha1Blocks (h : Nat × Nat × Nat × Nat × Nat) (l : List Nat) :
    Nat → Nat × Nat × Nat × Nat × Nat
  | 0 => h
  | n + 1 => sha1Blocks (sha1Chunk h (l.take 64)) (l.drop 64) n

/-- SHA-1 digest of a byte sequence, as its 20 bytes. -/
def sha1 (msg : List Nat) : List Nat :=
  let p := sha1Pad msg
  match sha1Blocks (0x67452301, 0xEFCDAB89, 0x98BADCFE, 0x10325476, 0xC3D2E1F0)
      p (p.length / 64) with
  | (h0, h1, h2, h3, h4) =>
      beBytes4 h0 ++ beBytes4 h1 ++ beBytes4 h2 ++ beBytes4 h3 ++ beBytes4 h4

example : sha1 [] =
    [0xda, 0x39, 0xa3, 0xee, 0x5e, 0x6b, 0x4b, 0x0d, 0x32, 0x55,
     0xbf, 0xef, 0x95, 0x60, 0x18, 0x90, 0xaf, 0xd8, 0x07, 0x09] := by decide

example : sha1 [0x61, 0x62, 0x63] =
    [0xa9, 0x99, 0x3e, 0x36, 0x47, 0x06, 0x81, 0x6a, 0xba, 0x3e,
     0x25, 0x71, 0x78, 0x50, 0xc2, 0x6c, 0x9c, 0xd0, 0xd8, 0x9d] := by decide

/-- Character of the standard base64 alphabet at a 6-bit index. -/
def b64Char (n : Nat) : Char :=
  "ABCDEFGHIJKLMNOPQRSTUVWXYZabcdefghijklmnopqrstuvwxyz0123456789+/".data.getD n 'A'

/-- Standard base64 with padding, as produced by Go base64.StdEncoding. -/
def base64Chars : List Nat → List Char
  | [] => []
  | [a] => [b64Char (a / 4), b64Char (a % 4 * 16), '=', '=']
  | [a, b] => [b64Char (a / 4), b64Char (a % 4 * 16 + b / 16), b64Char (b % 16 * 4), '=']
  | a :: b :: c :: rest =>
      b64Char (a / 4) :: b64Char (a % 4 * 16 + b / 16) :: b64Char (b % 16 * 4 + c / 64) ::
        b64Char (c % 64) :: base64Chars rest

/-- Standard base64 encoding of a byte sequence as a string. -/
def base64String (l : List Nat) : String := String.mk (base64Chars l)

/-- UTF-8 code units of one character: the bytes a Go string conversion yields. -/
def utf8Bytes (c : Char) : List Nat :=
  let n := c.toNat
  if n < 128 then [n]
  else if n < 2048 then [192 + n / 64, 128 + n % 64]
  else if n < 65536 then [224 + n / 4096, 128 + n / 64 % 64, 128 + n % 64]
  else [240 + n / 262144, 128 + n / 4096 % 64, 128 + n / 64 % 64, 128 + n % 64]

/-- The byte sequence of a Go string (UTF-8). -/
def strBytes (s : String) : List Nat := (s.data.map utf8Bytes).flatten

/-- Model of the Go hash.Hash contract for a SHA-1 hash: Sum appends the
digest of the data written to the hash so far to its argument and returns
the result. The field written holds the bytes written so far; FindDups
creates the hash with sha1.New() and never writes to it, so written is
empty there. -/
def hashSum (written b : List Nat) : List Nat := b ++ sha1 written

/-- The envelope metadata of one message, as used by FindDups
(go-imap imap.Envelope). Date holds the textual form that the Go code
obtains from Date.String(), and each address list holds the strings that
Address() yields for its entries; the other fields are verbatim. -/
structure Envelope where
  Date : String
  Subject : String
  From : List String
  Sender : List String
  ReplyTo : List String
  To : List String
  Cc : List String
  Bcc : List String
  InReplyTo : String
  MessageId : String
deriving DecidableEq, Repr

/-- The byte-sequence source string that FindDups builds with
strings.Builder in the content-hash branch: tagged date, subject, the six
role-tagged address lists in source order, and the trailing in-reply-to
field. -/
def contentString (e : Envelope) : String :=
  "date:" ++ e.Date ++ "\nsubject:" ++ e.Subject
    ++ String.join (e.From.map (fun f => "\nfrom:" ++ f))
    ++ String.join (e.Sender.map (fun f => "\nsender:" ++ f))
    ++ String.join (e.ReplyTo.map (fun f => "\nreply-to:" ++ f))
    ++ String.join (e.To.map (fun f => "\nto:" ++ f))
    ++ String.join (e.Cc.map (fun f => "\ncc:" ++ f))
    ++ String.join (e.Bcc.map (fun f => "\nbcc:" ++ f))
    ++ "\nin-reply-to:" ++ e.InReplyTo

/-- The fingerprint computed per message inside the FindDups loop: the
protocol MessageId when present and not ignored, otherwise
base64(hash.Sum(bytes of the content string)) where the hash was created
by sha1.New() with nothing written to it. -/
def fingerprint (e : Envelope) (ignoreMessageID : Bool) : String :=
  let messageID := if ignoreMessageID then "" else e.MessageId
  if messageID = "" then
    base64String (hashSum [] (strBytes (contentString e)))
  else messageID

/-- An envelope with every field empty. -/
def emptyEnv : Envelope :=
  ⟨"", "", [], [], [], [], [], [], "", ""⟩

example : fingerprint emptyEnv false =
    "ZGF0ZToKc3ViamVjdDoKaW4tcmVwbHktdG862jmj7l5rSw0yVb/vlWAYkK/YBwk=" := by decide

/-- One message record delivered by the metadata stream: its mailbox
unique identifier and its envelope. -/
structure Message where
  Uid : Nat
  Envelope : Envelope
deriving DecidableEq

/-- The classification loop of FindDups: dups and uniqueIDs accumulate as
the Go variables of those names do. The Go map from fingerprint to
presence is modelled as the list of its keys in insertion order; the loop
uses only membership tests and insertion of absent keys. -/
def scanStep (ignoreMessageID : Bool) :
    List Message → List Nat → List String → List Nat × List String
  | [], dups, uniqueIDs => (dups, uniqueIDs)
  | msg :: rest, dups, uniqueIDs =>
    if fingerprint msg.Envelope ignoreMessageID ∈ uniqueIDs then
      scanStep ignoreMessageID rest (dups ++ [msg.Uid]) uniqueIDs
    else
      scanStep ignoreMessageID rest dups
        (uniqueIDs ++ [fingerprint msg.Envelope ignoreMessageID])

/-- The full classification pass of FindDups over the delivered records,
starting from an empty duplicate list and an empty seen set. -/
def FindDupsScan (ignoreMessageID : Bool) (msgs : List Message) :
    List Nat × List String :=
  scanStep ignoreMessageID msgs [] []

/-- Following the words of the spec: a record is classified duplicate
exactly when its fingerprint was already observed on some earlier record;
the prior argument carries the fingerprints of all earlier records. -/
def dupSpec (ignoreMessageID : Bool) : List Message → List String → List Nat
  | [], _ => []
  | msg :: rest, prior =>
    if fingerprint msg.Envelope ignoreMessageID ∈ prior then
      msg.Uid :: dupSpec ignoreMessageID rest
        (prior ++ [fingerprint msg.Envelope ignoreMessageID])
    else
      dupSpec ignoreMessageID rest (prior ++ [fingerprint msg.Envelope ignoreMessageID])

/-- Result of selecting a mailbox; the code reads only UidValidity. -/
structure MailboxStatus where
  UidValidity : Nat
deriving DecidableEq

/-- A request issued to the imap session collaborator. select records the
readOnly argument passed to client.Select; store is the UidStore request
that adds the deleted flag to one uid; expunge is the mailbox-wide
Expunge request. uidFetch is the read-only metadata fetch. -/
inductive Op where
  | select (mbox : String) (readOnly : Bool)
  | uidFetch
  | store (uid : Nat)
  | expunge
deriving DecidableEq

/-- Model of the authenticated go-imap client session at its interface:
the outcome of selecting each mailbox name, the records the UidFetch
stream delivers on the channel before the fetch closes it together with
the error the fetch reports, and the outcomes of store and expunge
requests. -/
structure Session where
  select : String → Except String MailboxStatus
  fetchMsgs : List Message
  fetchErr : Option String
  store : Nat → Option String
  expunge : Option String

/-- FindDups (src/main.go): select the mailbox, request the UidFetch
stream over the full uid range, classify every delivered record, and
return the duplicate uid list together with the error the fetch reported.
The concurrent producer is modelled by the delivered record list plus its
completion error: the loop drains the channel until the fetch closes it
and reads the error channel only after the drain. The second component is
the trace of session requests. -/
def FindDups (s : Session) (mbox : String) (ignoreMessageID listOnlyDups : Bool) :
    (Option (List Nat) × Option String) × List Op :=
  match s.select mbox with
  | .error e => ((none, some e), [.select mbox false])
  | .ok _st =>
      ((some (FindDupsScan ignoreMessageID s.fetchMsgs).1, s.fetchErr),
        [.select mbox false, .uidFetch])

/-- The mark loop of RemoveDups followed by the final expunge: one
UidStore request per uid in list order, returning at the first failure;
the Expunge request is issued only after every store succeeded. Returns
the error outcome and the trace of session requests. -/
def removeLoop (s : Session) : List Nat → Option String × List Op
  | [] => (s.expunge, [.expunge])
  | uid :: rest =>
    match s.store uid with
    | some e => (some e, [.store uid])
    | none => ((removeLoop s rest).1, .store uid :: (removeLoop s rest).2)

/-- RemoveDups (src/main.go): re-select the mailbox, mark each listed uid
with the deleted flag in list order aborting at the first failure, then
expunge the mailbox. The second component is the trace of session
requests. -/
def RemoveDups (s : Session) (mbox : String) (uids : List Nat) :
    Option String × List Op :=
  match s.select mbox with
  | .error e => (some e, [.select mbox false])
  | .ok _st =>
      ((removeLoop s uids).1, .select mbox false :: (removeLoop s uids).2)

/-- A session that selects successfully, streams two records with equal
(empty) envelopes, and then reports a fetch failure. -/
def sessC3 : Session :=
  { select := fun _ => .ok ⟨1⟩
    fetchMsgs := [⟨1, emptyEnv⟩, ⟨2, emptyEnv⟩]
    fetchErr := some "connection reset"
    store := fun _ => none
    expunge := none }

/-- A session whose store request fails for uid 20 only. -/
def sessC4 : Session :=
  { select := fun _ => .ok ⟨1⟩
    fetchMsgs := []
    fetchErr := none
    store := fun u => if u = 20 then some "store failed" else none
    expunge := none }

/-- A session whose mailbox selection fails. -/
def sessBadSelect : Session :=
  { select := fun _ => .error "no such mailbox"
    fetchMsgs := []
    fetchErr := none
    store := fun _ => none
    expunge := none }

/-- An envelope used in the content-hash congruence analysis. -/
def envC5a : Envelope := ⟨"d", "s", ["a@b"], [], [], [], [], [], "", ""⟩

/-- Companion of envC5a, identical except for the in-reply-to field. -/
def envC5b : Envelope := ⟨"d", "s", ["a@b"], [], [], [], [], [], "xyz", ""⟩

/-- Following the words of the spec: the content-branch fingerprint the
spec prescribes, namely the base64 encoding of the 160-bit digest applied
to the content byte sequence. -/
def specDigestFingerprint (e : Envelope) : String :=
  base64String (sha1 (strBytes (contentString e)))

theorem scanStep_dups_append (m : Bool) (msgs : List Message) :
    ∀ dups seen, scanStep m msgs dups seen =
      (dups ++ (scanStep m msgs [] seen).1, (scanStep m msgs [] seen).2) := by
  induction msgs with
  | nil => intro dups seen; simp [scanStep]
  | cons msg rest ih =>
      intro dups seen
      by_cases h : fingerprint msg.Envelope m ∈ seen
      · simp only [scanStep, if_pos h, List.nil_append]
        rw [ih (dups ++ [msg.Uid]) seen, ih [msg.Uid] seen]
        simp
      · simp only [scanStep, if_neg h, List.nil_append]
        exact ih dups (seen ++ [fingerprint msg.Envelope m])

theorem scanStep_spec (m : Bool) (msgs : List Message) :
    ∀ seen prior, (∀ f, f ∈ seen ↔ f ∈ prior) → seen.Nodup →
      (scanStep m msgs [] seen).1 = dupSpec m msgs prior ∧
      (scanStep m msgs [] seen).2.Nodup ∧
      (∀ f, f ∈ (scanStep m msgs [] seen).2 ↔
        f ∈ prior ∨ f ∈ msgs.map fun msg => fingerprint msg.Envelope m) ∧
      (scanStep m msgs [] seen).2.length + (scanStep m msgs [] seen).1.length =
        seen.length + msgs.length := by
  induction msgs with
  | nil =>
      intro seen prior hmem hnd
      refine ⟨rfl, hnd, ?_, rfl⟩
      intro f
      simp [scanStep, hmem f]
  | cons msg rest ih =>
      intro seen prior hmem hnd
      by_cases h : fingerprint msg.Envelope m ∈ seen
      · have hp : fingerprint msg.Envelope m ∈ prior := (hmem _).1 h
        have hmem2 : ∀ f, f ∈ seen ↔ f ∈ prior ++ [fingerprint msg.Envelope m] := by
          intro f
          rw [hmem f]
          simp only [List.mem_append, List.mem_singleton]
          constructor
          · exact Or.inl
          · rintro (hf | rfl)
            · exact hf
            · exact hp
        obtain ⟨h1, h2, h3, h4⟩ :=
          ih seen (prior ++ [fingerprint msg.Envelope m]) hmem2 hnd
        simp only [scanStep, if_pos h, List.nil_append]
        rw [scanStep_dups_append m rest [msg.Uid] seen]
        refine ⟨?_, h2, ?_, ?_⟩
        · simp only [dupSpec, if_pos hp, List.singleton_append, h1]
        · intro f
          rw [h3 f]
          simp only [List.mem_append, List.mem_singleton, List.map_cons, List.mem_cons]
          tauto
        · simp only [List.length_append, List.length_singleton, List.length_cons,
            List.length_nil, List.length_map] at h4 ⊢
          omega
      · have hp : fingerprint msg.Envelope m ∉ prior := fun hf => h ((hmem _).2 hf)
        have hmem2 : ∀ f, f ∈ seen ++ [fingerprint msg.Envelope m] ↔
            f ∈ prior ++ [fingerprint msg.Envelope m] := by
          intro f
          simp only [List.mem_append, List.mem_singleton, hmem f]
        have hnd2 : (seen ++ [fingerprint msg.Envelope m]).Nodup := by
          simp [List.nodup_append, hnd, h]
        obtain ⟨h1, h2, h3, h4⟩ :=
          ih (seen ++ [fingerprint msg.Envelope m])
            (prior ++ [fingerprint msg.Envelope m]) hmem2 hnd2
        simp only [scanStep, if_neg h, List.nil_append]
        refine ⟨?_, h2, ?_, ?_⟩
        · simp only [dupSpec, if_neg hp, h1]
        · intro f
          rw [h3 f]
          simp only [List.mem_append, List.mem_singleton, List.map_cons, List.mem_cons]
          tauto
        · simp only [List.length_append, List.length_singleton, List.length_cons,
            List.length_nil] at h4 ⊢
          omega

/-- C1: over any finite stream of records, the scan of FindDups returns
as duplicates exactly the unique identifiers of the records whose
fingerprint already occurred on an earlier record, in arrival order, and
its seen set ends with exactly one entry per distinct fingerprint: it has
no duplicate entries, contains precisely the fingerprints of the stream,
and its size is the record count minus the duplicate count. -/
theorem findDupsScan_correct (m : Bool) (msgs : List Message) :
    (FindDupsScan m msgs).1 = dupSpec m msgs [] ∧
    (FindDupsScan m msgs).2.Nodup ∧
    (∀ f, f ∈ (FindDupsScan m msgs).2 ↔
      f ∈ msgs.map fun msg => fingerprint msg.Envelope m) ∧
    (FindDupsScan m msgs).2.length = msgs.length - (FindDupsScan m msgs).1.length := by
  obtain ⟨h1, h2, h3, h4⟩ := scanStep_spec m msgs [] []
    (fun f => Iff.rfl) List.nodup_nil
  refine ⟨h1, h2, ?_, ?_⟩
  · intro f
    rw [FindDupsScan, h3 f]
    simp
  · simp only [List.length_nil] at h4
    rw [FindDupsScan] at *
    omega

/-- C2: in use-protocol-id mode a non-empty protocol message identifier
is returned verbatim as the fingerprint, with no transformation. -/
theorem fingerprint_protocol_id (e : Envelope) (h : e.MessageId ≠ "") :
    fingerprint e false = e.MessageId := by
  simp [fingerprint, h]

theorem fingerprint_protocol_id_witness :
    ({ emptyEnv with MessageId := "id@x" } : Envelope).MessageId ≠ "" ∧
    fingerprint { emptyEnv with MessageId := "id@x" } false = "id@x" :=
  ⟨by decide, fingerprint_protocol_id { emptyEnv with MessageId := "id@x" } (by decide)⟩

/-- C8: the fingerprint computation is a pure function of the envelope
and the mode flag alone: structurally equal envelopes and equal modes
yield equal fingerprint strings. -/
theorem fingerprint_deterministic (e1 e2 : Envelope) (m1 m2 : Bool)
    (he : e1 = e2) (hm : m1 = m2) : fingerprint e1 m1 = fingerprint e2 m2 := by
  rw [he, hm]

theorem fingerprint_deterministic_witness :
    emptyEnv = emptyEnv ∧ fingerprint emptyEnv false = fingerprint emptyEnv false :=
  ⟨rfl, fingerprint_deterministic emptyEnv emptyEnv false false rfl rfl⟩

/-- C3: when selection succeeds, FindDups classifies every delivered
record and returns the duplicate list computed from the whole delivered
stream together with exactly the error the fetch reported after the
drain: a stream failure is surfaced alongside the full list, never
silently dropped. -/
theorem findDups_drains (s : Session) (mbox : String) (m v : Bool)
    (st : MailboxStatus) (h : s.select mbox = .ok st) :
    (FindDups s mbox m v).1 =
      (some (FindDupsScan m s.fetchMsgs).1, s.fetchErr) := by
  simp [FindDups, h]

theorem findDups_drains_witness :
    sessC3.select "INBOX" = .ok ⟨1⟩ ∧
    (FindDups sessC3 "INBOX" false false).1 = (some [2], some "connection reset") := by
  refine ⟨rfl, ?_⟩
  rw [findDups_drains sessC3 "INBOX" false false ⟨1⟩ rfl]
  decide

theorem removeLoop_all_ok (s : Session) (uids : List Nat)
    (h : ∀ u ∈ uids, s.store u = none) :
    removeLoop s uids = (s.expunge, uids.map Op.store ++ [Op.expunge]) := by
  induction uids with
  | nil => simp [removeLoop]
  | cons u rest ih =>
      have hu : s.store u = none := h u (by simp)
      have hrest : ∀ x ∈ rest, s.store x = none := fun x hx => h x (by simp [hx])
      simp [removeLoop, hu, ih hrest]

theorem removeLoop_first_fail (s : Session) (u : Nat) (e : String) :
    ∀ pre post, (∀ x ∈ pre, s.store x = none) → s.store u = some e →
      removeLoop s (pre ++ u :: post) = (some e, (pre ++ [u]).map Op.store) := by
  intro pre
  induction pre with
  | nil =>
      intro post hpre hu
      simp [removeLoop, hu]
  | cons p rest ih =>
      intro post hpre hu
      have hp : s.store p = none := hpre p (by simp)
      have hrest : ∀ x ∈ rest, s.store x = none := fun x hx => hpre x (by simp [hx])
      simp [removeLoop, hp, ih post hrest hu]

theorem removeLoop_ok_iff (s : Session) (uids : List Nat) :
    (removeLoop s uids).1 = none ↔
      (∀ u ∈ uids, s.store u = none) ∧ s.expunge = none := by
  induction uids with
  | nil => simp [removeLoop]
  | cons u rest ih =>
      cases hu : s.store u with
      | some e => simp [removeLoop, hu]
      | none => simp [removeLoop, hu, ih]

/-- C4: under a successful selection, the mark requests of RemoveDups are
issued one per identifier in list order; when every mark succeeds the
trace is exactly the selection, the marks in order and the final expunge,
and the outcome is that of the expunge; the first failing mark makes
RemoveDups return that failure with no mark issued past it and no expunge
issued; and RemoveDups succeeds exactly when every mark and the expunge
succeed. -/
theorem removeDups_mark_order (s : Session) (mbox : String) (st : MailboxStatus)
    (h : s.select mbox = .ok st) (uids : List Nat) :
    ((∀ u ∈ uids, s.store u = none) →
      RemoveDups s mbox uids =
        (s.expunge, Op.select mbox false :: (uids.map Op.store ++ [Op.expunge]))) ∧
    (∀ pre u post e, uids = pre ++ u :: post → (∀ x ∈ pre, s.store x = none) →
      s.store u = some e →
      RemoveDups s mbox uids =
        (some e, Op.select mbox false :: (pre ++ [u]).map Op.store)) ∧
    ((RemoveDups s mbox uids).1 = none ↔
      (∀ u ∈ uids, s.store u = none) ∧ s.expunge = none) := by
  refine ⟨?_, ?_, ?_⟩
  · intro hall
    simp [RemoveDups, h, removeLoop_all_ok s uids hall]
  · intro pre u post e hsplit hpre hu
    subst hsplit
    simp [RemoveDups, h, removeLoop_first_fail s u e pre post hpre hu]
  · simp [RemoveDups, h, removeLoop_ok_iff]

theorem removeDups_mark_order_witness :
    sessC4.select "INBOX" = .ok ⟨1⟩ ∧
    RemoveDups sessC4 "INBOX" [10, 20, 30] =
      (some "store failed", [Op.select "INBOX" false, Op.store 10, Op.store 20]) := by
  refine ⟨rfl, ?_⟩
  rw [(removeDups_mark_order sessC4 "INBOX" ⟨1⟩ rfl [10, 20, 30]).2.1
    [10] 20 [30] "store failed" rfl (by decide) (by decide)]
  decide

/-- C5 counterexample: two envelopes with identical subject, identical
timestamp string and identical address lists in every role still get
different content-hash fingerprints, because the in-reply-to field also
enters the hashed content and differs between them. -/
theorem fingerprint_five_roles_counterexample :
    envC5a.Subject = envC5b.Subject ∧ envC5a.Date = envC5b.Date ∧
    envC5a.From = envC5b.From ∧ envC5a.Sender = envC5b.Sender ∧
    envC5a.ReplyTo = envC5b.ReplyTo ∧ envC5a.To = envC5b.To ∧
    envC5a.Cc = envC5b.Cc ∧ envC5a.Bcc = envC5b.Bcc ∧
    fingerprint envC5a true ≠ fingerprint envC5b true := by decide

/-- C5 amended: for envelopes with identical subject, timestamp string,
identical address lists in all six roles and identical in-reply-to field,
content-hash fingerprinting yields equal fingerprints. -/
theorem fingerprint_content_equal (e1 e2 : Envelope)
    (hsub : e1.Subject = e2.Subject) (hdate : e1.Date = e2.Date)
    (hfrom : e1.From = e2.From) (hsender : e1.Sender = e2.Sender)
    (hreply : e1.ReplyTo = e2.ReplyTo) (hto : e1.To = e2.To)
    (hcc : e1.Cc = e2.Cc) (hbcc : e1.Bcc = e2.Bcc)
    (hirt : e1.InReplyTo = e2.InReplyTo) :
    fingerprint e1 true = fingerprint e2 true := by
  have hc : contentString e1 = contentString e2 := by
    unfold contentString
    rw [hsub, hdate, hfrom, hsender, hreply, hto, hcc, hbcc, hirt]
  simp [fingerprint, hc]

theorem fingerprint_content_equal_witness :
    fingerprint envC5a true = fingerprint envC5a true :=
  fingerprint_content_equal envC5a envC5a rfl rfl rfl rfl rfl rfl rfl rfl rfl

/-- C6: evaluated at the all-empty envelope, the content branch encodes
the 47-byte sequence content-bytes followed by the digest of the empty
byte sequence, because hash.Sum appends the digest of the data written to
the hash (nothing was written) to its argument; the result is not the
base64 encoding of a 20-byte digest of the content and differs from the
digest-based fingerprint the spec prescribes. -/
theorem fingerprint_not_digest :
    fingerprint emptyEnv false =
      base64String (strBytes (contentString emptyEnv) ++ sha1 []) ∧
    (strBytes (contentString emptyEnv) ++ sha1 []).length = 47 ∧
    specDigestFingerprint emptyEnv = "fhKi6+cVgUJHpYLx0Pdeww9TQg0=" ∧
    fingerprint emptyEnv false ≠ specDigestFingerprint emptyEnv := by decide

/-- C7 counterexample: at a concrete session the scan issues its mailbox
selection with the readOnly argument set to false; no read-only selection
is issued, so the selection is not performed in read-only mode. -/
theorem findDups_not_readonly_counterexample :
    Op.select "INBOX" false ∈ (FindDups sessC3 "INBOX" false false).2 ∧
    Op.select "INBOX" true ∉ (FindDups sessC3 "INBOX" false false).2 := by decide

/-- C7 amended: FindDups selects the mailbox with the readOnly argument
false (a read-write selection) and performs no mutation of mailbox state:
its request trace is the selection alone or the selection followed by the
metadata fetch, never containing a store or expunge request. -/
theorem findDups_no_mutation (s : Session) (mbox : String) (m v : Bool) :
    (FindDups s mbox m v).2 = [Op.select mbox false] ∨
    (FindDups s mbox m v).2 = [Op.select mbox false, Op.uidFetch] := by
  unfold FindDups
  cases s.select mbox with
  | error e => simp
  | ok st => simp

/-- C9: with an empty identifier list RemoveDups still selects the
mailbox and issues the mailbox-wide expunge request, returning the
outcome of the expunge. -/
theorem removeDups_empty_expunges (s : Session) (mbox : String)
    (st : MailboxStatus) (h : s.select mbox = .ok st) :
    RemoveDups s mbox [] = (s.expunge, [Op.select mbox false, Op.expunge]) := by
  simp [RemoveDups, h, removeLoop]

theorem removeDups_empty_expunges_witness :
    sessC3.select "INBOX" = .ok ⟨1⟩ ∧
    RemoveDups sessC3 "INBOX" [] = (none, [Op.select "INBOX" false, Op.expunge]) := by
  refine ⟨rfl, ?_⟩
  rw [removeDups_empty_expunges sessC3 "INBOX" ⟨1⟩ rfl]
  rfl

/-- C10: when the mailbox selection at the start of RemoveDups fails,
RemoveDups returns that failure and its request trace holds the failed
selection alone: no store and no expunge request is issued. -/
theorem removeDups_select_fail (s : Session) (mbox : String) (e : String)
    (uids : List Nat) (h : s.select mbox = .error e) :
    RemoveDups s mbox uids = (some e, [Op.select mbox false]) := by
  simp [RemoveDups, h]

theorem removeDups_select_fail_witness :
    sessBadSelect.select "INBOX" = .error "no such mailbox" ∧
    RemoveDups sessBadSelect "INBOX" [10, 20] =
      (some "no such mailbox", [Op.select "INBOX" false]) := by
  refine ⟨rfl, ?_⟩
  rw [removeDups_select_fail sessBadSelect "INBOX" "no such mailbox" [10, 20] rfl]

end ImapDedup
